import Mathlib

/-!
Verification of the encode-bot pipeline (`core/ffmpeg.py`, `core/downloader.py`,
`commands/encode.py`, `utils/cleaner.py`, `models/user_settings.py`, `config.py`)
against its natural-language specification.

Python strings are embedded as `List Char` (a Python `str` is a sequence of
characters); `String` wrappers are provided at the statement boundary.
Machine integers are embedded as `Int`/`Nat` (Python ints are unbounded, so no
modular wrap is needed).  Fallible operations return `Option`.
-/

namespace EncodeBot

/-! ### Python string primitives

Faithful models of the `str` operations the source uses: `split(sep)` with a
one-character separator, `strip()`, `startswith`, and `int(...)` on ASCII
decimal input (optional surrounding whitespace, optional sign, decimal
digits; any other input raises, which we model as `none`). -/

/-- Python `str.split(sep)` for a single-character separator: splits at every
occurrence and keeps empty pieces, so `"".split(":") == [""]`. -/
def pySplitChar (sep : Char) : List Char → List (List Char)
  | [] => [[]]
  | c :: rest =>
    if c = sep then
      [] :: pySplitChar sep rest
    else
      match pySplitChar sep rest with
      | [] => [[c]]
      | piece :: pieces => (c :: piece) :: pieces

/-- Characters Python `str.strip()` removes by default. -/
def isPySpace (c : Char) : Bool :=
  c = ' ' || c = '\t' || c = '\n' || c = '\r' || c.toNat = 11 || c.toNat = 12

/-- Python `str.strip()`: drop whitespace from both ends. -/
def pyStripL (l : List Char) : List Char :=
  ((l.dropWhile isPySpace).reverse.dropWhile isPySpace).reverse

/-- Python `a.startswith(b)` on character lists (first argument is the
candidate leading segment). -/
def startsWithL : List Char → List Char → Bool
  | [], _ => true
  | _ :: _, [] => false
  | p :: ps, c :: cs => p = c && startsWithL ps cs

/-- ASCII decimal digit test. -/
def isDig (c : Char) : Bool :=
  48 ≤ c.toNat && c.toNat ≤ 57

/-- Value of a big-endian ASCII decimal digit string. -/
def digitsVal (l : List Char) : Nat :=
  l.foldl (fun a c => a * 10 + (c.toNat - 48)) 0

/-- Parse a nonempty all-digit string, as Python `int` does after sign and
whitespace handling. -/
def decDigits? (l : List Char) : Option Nat :=
  if l = [] then none
  else if l.all isDig then some (digitsVal l) else none

/-- Python `int(s)` on ASCII input: strip whitespace, optional single sign,
then a nonempty run of decimal digits; anything else raises (`none`). -/
def pyIntL (s : List Char) : Option Int :=
  match pyStripL s with
  | [] => none
  | c :: rest =>
    if c = '-' then (decDigits? rest).map (fun n => -(n : Int))
    else if c = '+' then (decDigits? rest).map (fun n => (n : Int))
    else (decDigits? (c :: rest)).map (fun n => (n : Int))

/-- ASCII character of a decimal digit (`d ≥ 9` yields `'9'`; only `d < 10`
is ever reached). -/
def digitChar (d : Nat) : Char :=
  if d = 0 then '0' else if d = 1 then '1' else if d = 2 then '2'
  else if d = 3 then '3' else if d = 4 then '4' else if d = 5 then '5'
  else if d = 6 then '6' else if d = 7 then '7' else if d = 8 then '8'
  else '9'

/-- Fuel-driven digit expansion; with `n ≤ fuel` it computes the decimal
digits of `n`, most significant first. -/
def natDigitsGo : Nat → Nat → List Char
  | 0, n => [digitChar n]
  | fuel + 1, n =>
    if n < 10 then [digitChar n]
    else natDigitsGo fuel (n / 10) ++ [digitChar (n % 10)]

/-- Decimal digits of a natural number, most significant first (the digits
Python's `%d` formatting produces). -/
def natDigits (n : Nat) : List Char :=
  natDigitsGo n n

/-- Python `f"{n:02d}"` for a nonnegative value: at least two digits,
zero-padded. -/
def padTwo (n : Nat) : List Char :=
  if n < 10 then '0' :: natDigits n else natDigits n

/-- Python `f"{i:02d}"`: the sign counts toward the width, so `-5` prints as
`"-5"`. -/
def fmt02 (i : Int) : List Char :=
  if i < 0 then '-' :: natDigits i.natAbs else padTwo i.toNat

/-! ### `time_to_seconds` and `seconds_to_time` (`core/ffmpeg.py:238-269`)

`time_to_seconds` (string branch): drop everything from the first `"."` on,
split on `":"`; three parts are `H:M:S`, two parts are `M:S`, any other shape
takes `int(parts[0])`; any `int()` failure is caught and yields `0`.
`seconds_to_time` uses Python `//` and `%` (floor division, nonnegative
remainder for a positive modulus), i.e. `Int.ediv`/`Int.emod`. -/

/-- Embedding of `time_to_seconds` (`core/ffmpeg.py:238-258`), string branch,
over character lists. -/
def timeToSecondsL (l : List Char) : Int :=
  let t := if '.' ∈ l then (pySplitChar '.' l).headD [] else l
  match pySplitChar ':' t with
  | [p1, p2, p3] =>
    match pyIntL p1, pyIntL p2, pyIntL p3 with
    | some h, some m, some s => h * 3600 + m * 60 + s
    | _, _, _ => 0
  | [p1, p2] =>
    match pyIntL p1, pyIntL p2 with
    | some m, some s => m * 60 + s
    | _, _ => 0
  | parts =>
    match pyIntL (parts.headD []) with
    | some v => v
    | none => 0

/-- Embedding of `seconds_to_time` (`core/ffmpeg.py:260-269`) over an integer
second count (Python `int(seconds)` has already been applied). -/
def secondsToTimeL (x : Int) : List Char :=
  fmt02 (x / 3600) ++ ':' :: fmt02 (x % 3600 / 60) ++ ':' :: fmt02 (x % 60)

/-- String-level `time_to_seconds`. -/
def time_to_seconds (s : String) : Int :=
  timeToSecondsL s.data

/-- String-level `seconds_to_time`. -/
def seconds_to_time (x : Int) : String :=
  ⟨secondsToTimeL x⟩

/-- The `HH:MM:SS` rendering used both by `seconds_to_time` and as the shape
of well-formed inputs. -/
def hmsStr (h m s : Nat) : String :=
  ⟨padTwo h ++ ':' :: padTwo m ++ ':' :: padTwo s⟩

/-- The two-field `MM:SS` form `time_to_seconds` also accepts. -/
def mmssStr (m s : Nat) : String :=
  ⟨padTwo m ++ ':' :: padTwo s⟩

/-- A bare decimal second count. -/
def natStr (n : Nat) : String :=
  ⟨natDigits n⟩

example : time_to_seconds "" = 0 := by decide
example : time_to_seconds "abc" = 0 := by decide
example : time_to_seconds "01:02:03" = 3723 := by decide
example : time_to_seconds "01:02:03.500" = 3723 := by decide
example : time_to_seconds "02:03" = 123 := by decide
example : time_to_seconds "59" = 59 := by decide
example : time_to_seconds "1:2:3:4" = 1 := by decide
example : seconds_to_time 3723 = "01:02:03" := by decide
example : seconds_to_time 0 = "00:00:00" := by decide
example : hmsStr 1 2 3 = "01:02:03" := by decide

/-! ### Digit and parsing lemmas -/

lemma isDig_digitChar (d : Nat) : isDig (digitChar d) = true := by
  unfold digitChar
  split_ifs <;> decide

lemma digitChar_toNat (d : Nat) (hd : d < 10) : (digitChar d).toNat = 48 + d := by
  unfold digitChar
  split_ifs with h0 h1 h2 h3 h4 h5 h6 h7 h8
  · subst h0; decide
  · subst h1; decide
  · subst h2; decide
  · subst h3; decide
  · subst h4; decide
  · subst h5; decide
  · subst h6; decide
  · subst h7; decide
  · subst h8; decide
  · have : d = 9 := by omega
    subst this; decide

lemma natDigitsGo_ne_nil (fuel n : Nat) : natDigitsGo fuel n ≠ [] := by
  cases fuel with
  | zero => simp [natDigitsGo]
  | succ fuel =>
    unfold natDigitsGo
    split <;> simp

lemma natDigits_ne_nil (n : Nat) : natDigits n ≠ [] :=
  natDigitsGo_ne_nil n n

lemma natDigitsGo_all_dig (fuel n : Nat) : (natDigitsGo fuel n).all isDig = true := by
  induction fuel generalizing n with
  | zero => simp [natDigitsGo, isDig_digitChar]
  | succ fuel ih =>
    unfold natDigitsGo
    split
    · simp [isDig_digitChar]
    · simp [List.all_append, ih, isDig_digitChar]

lemma natDigits_all_dig (n : Nat) : (natDigits n).all isDig = true :=
  natDigitsGo_all_dig n n

lemma digitsVal_append_singleton (l : List Char) (c : Char) :
    digitsVal (l ++ [c]) = digitsVal l * 10 + (c.toNat - 48) := by
  simp [digitsVal, List.foldl_append]

lemma natDigitsGo_val (fuel n : Nat) (h : n ≤ fuel ∨ n < 10) :
    digitsVal (natDigitsGo fuel n) = n := by
  induction fuel generalizing n with
  | zero =>
    have hn : n < 10 := by omega
    simp [natDigitsGo, digitsVal, digitChar_toNat n hn]
  | succ fuel ih =>
    unfold natDigitsGo
    by_cases hlt : n < 10
    · rw [if_pos hlt]
      simp [digitsVal, digitChar_toNat n hlt]
    · rw [if_neg hlt, digitsVal_append_singleton, ih (n / 10) (by omega),
        digitChar_toNat (n % 10) (by omega)]
      omega

lemma digitsVal_natDigits (n : Nat) : digitsVal (natDigits n) = n :=
  natDigitsGo_val n n (Or.inl le_rfl)

lemma padTwo_ne_nil (n : Nat) : padTwo n ≠ [] := by
  unfold padTwo
  split
  · simp
  · exact natDigits_ne_nil n

lemma padTwo_all_dig (n : Nat) : (padTwo n).all isDig = true := by
  unfold padTwo
  split
  · simp only [List.all_cons, natDigits_all_dig, Bool.and_true]
    decide
  · exact natDigits_all_dig n

lemma digitsVal_padTwo (n : Nat) : digitsVal (padTwo n) = n := by
  unfold padTwo
  split
  · have : digitsVal ('0' :: natDigits n) = digitsVal (natDigits n) := by
      simp [digitsVal]
    rw [this, digitsVal_natDigits]
  · exact digitsVal_natDigits n

lemma toNat_bounds_of_dig (c : Char) (h : isDig c = true) :
    48 ≤ c.toNat ∧ c.toNat ≤ 57 := by
  simpa [isDig] using h

lemma isPySpace_of_dig (c : Char) (h : isDig c = true) : isPySpace c = false := by
  obtain ⟨h1, h2⟩ := toNat_bounds_of_dig c h
  by_contra hsp
  rw [Bool.not_eq_false] at hsp
  have hx : c.toNat = 32 ∨ c.toNat = 9 ∨ c.toNat = 10 ∨ c.toNat = 13 ∨
      c.toNat = 11 ∨ c.toNat = 12 := by
    simp only [isPySpace, Bool.or_eq_true, decide_eq_true_eq] at hsp
    rcases hsp with ((((hc | hc) | hc) | hc) | hc) | hc
    · exact Or.inl (by rw [hc]; rfl)
    · exact Or.inr (Or.inl (by rw [hc]; rfl))
    · exact Or.inr (Or.inr (Or.inl (by rw [hc]; rfl)))
    · exact Or.inr (Or.inr (Or.inr (Or.inl (by rw [hc]; rfl))))
    · exact Or.inr (Or.inr (Or.inr (Or.inr (Or.inl hc))))
    · exact Or.inr (Or.inr (Or.inr (Or.inr (Or.inr hc))))
  omega

lemma isDig_ne (c : Char) (h : isDig c = true) :
    c ≠ '-' ∧ c ≠ '+' ∧ c ≠ ':' ∧ c ≠ '.' ∧ isPySpace c = false := by
  refine ⟨?_, ?_, ?_, ?_, isPySpace_of_dig c h⟩
  · intro he; rw [he] at h; exact absurd h (by decide)
  · intro he; rw [he] at h; exact absurd h (by decide)
  · intro he; rw [he] at h; exact absurd h (by decide)
  · intro he; rw [he] at h; exact absurd h (by decide)

lemma dropWhile_eq_self_of (p : Char → Bool) (l : List Char)
    (h : ∀ c ∈ l, p c = false) : l.dropWhile p = l := by
  cases l with
  | nil => rfl
  | cons c cs => simp [List.dropWhile, h c (List.mem_cons_self c cs)]

lemma pyStripL_eq_self (l : List Char) (h : ∀ c ∈ l, isPySpace c = false) :
    pyStripL l = l := by
  unfold pyStripL
  rw [dropWhile_eq_self_of _ _ h,
    dropWhile_eq_self_of _ _ (fun c hc => h c (List.mem_reverse.mp hc)),
    List.reverse_reverse]

lemma pyIntL_of_digits (l : List Char) (hne : l ≠ []) (hall : l.all isDig = true) :
    pyIntL l = some (digitsVal l) := by
  cases l with
  | nil => exact absurd rfl hne
  | cons c rest =>
    have hsp : ∀ x ∈ (c :: rest), isPySpace x = false := by
      intro x hx
      exact isPySpace_of_dig x (by simpa using List.all_eq_true.mp hall x hx)
    have hc : isDig c = true := by
      simpa using List.all_eq_true.mp hall c (List.mem_cons_self c rest)
    simp only [pyIntL, pyStripL_eq_self _ hsp]
    rw [if_neg (isDig_ne c hc).1, if_neg (isDig_ne c hc).2.1]
    unfold decDigits?
    rw [if_neg (by simp), if_pos hall]
    rfl

lemma pyIntL_padTwo (n : Nat) : pyIntL (padTwo n) = some n := by
  rw [pyIntL_of_digits (padTwo n) (padTwo_ne_nil n) (padTwo_all_dig n), digitsVal_padTwo]

lemma pyIntL_natDigits (n : Nat) : pyIntL (natDigits n) = some n := by
  rw [pyIntL_of_digits (natDigits n) (natDigits_ne_nil n) (natDigits_all_dig n),
    digitsVal_natDigits]

lemma pySplitChar_no_sep (sep : Char) (l : List Char) (h : sep ∉ l) :
    pySplitChar sep l = [l] := by
  induction l with
  | nil => rfl
  | cons c rest ih =>
    have hc : ¬ c = sep := by
      intro he; exact h (he ▸ List.mem_cons_self c rest)
    have hr : sep ∉ rest := fun hm => h (List.mem_cons_of_mem c hm)
    unfold pySplitChar
    rw [if_neg hc, ih hr]

lemma pySplitChar_append (sep : Char) (xs ys : List Char) (h : sep ∉ xs) :
    pySplitChar sep (xs ++ sep :: ys) = xs :: pySplitChar sep ys := by
  induction xs with
  | nil =>
    show pySplitChar sep (sep :: ys) = [] :: pySplitChar sep ys
    simp [pySplitChar]
  | cons c rest ih =>
    have hc : ¬ c = sep := by
      intro he; exact h (he ▸ List.mem_cons_self c rest)
    have hr : sep ∉ rest := fun hm => h (List.mem_cons_of_mem c hm)
    rw [List.cons_append]
    simp only [pySplitChar]
    rw [if_neg hc, ih hr]

lemma not_mem_padTwo (c : Char) (n : Nat) (hc : isDig c = false) : c ∉ padTwo n := by
  intro hm
  have := List.all_eq_true.mp (padTwo_all_dig n) c hm
  simp [hc] at this

lemma fmt02_cast (n : Nat) : fmt02 ((n : Nat) : Int) = padTwo n := by
  unfold fmt02
  rw [if_neg (by omega)]
  simp

lemma hms_no_dot (h m s : Nat) :
    '.' ∉ (padTwo h ++ ':' :: padTwo m ++ ':' :: padTwo s : List Char) := by
  intro hmem
  simp only [List.cons_append, List.append_assoc, List.mem_append, List.mem_cons] at hmem
  rcases hmem with hx | hx | hx | hx | hx
  · exact not_mem_padTwo '.' h (by decide) hx
  · exact absurd hx (by decide)
  · exact not_mem_padTwo '.' m (by decide) hx
  · exact absurd hx (by decide)
  · exact not_mem_padTwo '.' s (by decide) hx

lemma colon_split (h m s : Nat) :
    pySplitChar ':' (padTwo h ++ ':' :: padTwo m ++ ':' :: padTwo s)
      = [padTwo h, padTwo m, padTwo s] := by
  have hshape : (padTwo h ++ ':' :: padTwo m ++ ':' :: padTwo s : List Char)
      = padTwo h ++ ':' :: (padTwo m ++ ':' :: padTwo s) := by
    simp [List.cons_append, List.append_assoc]
  rw [hshape, pySplitChar_append _ _ _ (not_mem_padTwo ':' h (by decide)),
    pySplitChar_append _ _ _ (not_mem_padTwo ':' m (by decide)),
    pySplitChar_no_sep _ _ (not_mem_padTwo ':' s (by decide))]

lemma timeToSeconds_hmsL (h m s : Nat) :
    timeToSecondsL (padTwo h ++ ':' :: padTwo m ++ ':' :: padTwo s)
      = (h : Int) * 3600 + (m : Int) * 60 + (s : Int) := by
  simp only [timeToSecondsL]
  rw [if_neg (hms_no_dot h m s), colon_split]
  simp [pyIntL_padTwo]

lemma timeToSeconds_hms_fracL (h m s : Nat) (rest : List Char) :
    timeToSecondsL ((padTwo h ++ ':' :: padTwo m ++ ':' :: padTwo s) ++ '.' :: rest)
      = (h : Int) * 3600 + (m : Int) * 60 + (s : Int) := by
  simp only [timeToSecondsL]
  rw [if_pos (by simp), pySplitChar_append _ _ _ (hms_no_dot h m s)]
  simp only [List.headD_cons]
  rw [colon_split]
  simp [pyIntL_padTwo]

lemma timeToSeconds_mmssL (m s : Nat) :
    timeToSecondsL (padTwo m ++ ':' :: padTwo s) = (m : Int) * 60 + (s : Int) := by
  have hdot : '.' ∉ (padTwo m ++ ':' :: padTwo s : List Char) := by
    intro hmem
    simp only [List.mem_append, List.mem_cons] at hmem
    rcases hmem with hx | hx | hx
    · exact not_mem_padTwo '.' m (by decide) hx
    · exact absurd hx (by decide)
    · exact not_mem_padTwo '.' s (by decide) hx
  simp only [timeToSecondsL]
  rw [if_neg hdot, pySplitChar_append _ _ _ (not_mem_padTwo ':' m (by decide)),
    pySplitChar_no_sep _ _ (not_mem_padTwo ':' s (by decide))]
  simp [pyIntL_padTwo]

lemma timeToSeconds_bareL (n : Nat) : timeToSecondsL (natDigits n) = (n : Int) := by
  have hdot : '.' ∉ natDigits n := by
    intro hmem
    exact absurd (by simpa using List.all_eq_true.mp (natDigits_all_dig n) _ hmem)
      (by decide : ¬ isDig '.' = true)
  have hcolon : ':' ∉ natDigits n := by
    intro hmem
    exact absurd (by simpa using List.all_eq_true.mp (natDigits_all_dig n) _ hmem)
      (by decide : ¬ isDig ':' = true)
  simp only [timeToSecondsL]
  rw [if_neg hdot, pySplitChar_no_sep _ _ hcolon]
  simp [pyIntL_natDigits]

lemma secondsToTime_hmsL (h m s : Nat) (hm : m < 60) (hs : s < 60) :
    secondsToTimeL ((h : Int) * 3600 + (m : Int) * 60 + (s : Int))
      = padTwo h ++ ':' :: padTwo m ++ ':' :: padTwo s := by
  have e1 : ((h : Int) * 3600 + (m : Int) * 60 + (s : Int)) / 3600 = (h : Int) := by omega
  have e2 : ((h : Int) * 3600 + (m : Int) * 60 + (s : Int)) % 3600 / 60 = (m : Int) := by
    omega
  have e3 : ((h : Int) * 3600 + (m : Int) * 60 + (s : Int)) % 60 = (s : Int) := by omega
  simp only [secondsToTimeL, e1, e2, e3, fmt02_cast]

/-- Claim C8: for well-formed `HH:MM:SS` strings the conversion round-trips;
the malformed inputs `""` and `"abc"` yield `0` without raising (the embedding
is a total function); `HH:MM:SS.fraction`, `MM:SS` and bare-second forms all
convert to the integer second count. -/
theorem C8_time_roundtrip :
    (∀ h m s : Nat, m < 60 → s < 60 →
      seconds_to_time (time_to_seconds (hmsStr h m s)) = hmsStr h m s)
    ∧ time_to_seconds "" = 0
    ∧ time_to_seconds "abc" = 0
    ∧ (∀ h m s : Nat, ∀ rest : List Char,
        time_to_seconds ⟨(hmsStr h m s).data ++ '.' :: rest⟩
          = (h : Int) * 3600 + (m : Int) * 60 + (s : Int))
    ∧ (∀ m s : Nat, time_to_seconds (mmssStr m s) = (m : Int) * 60 + (s : Int))
    ∧ (∀ n : Nat, time_to_seconds (natStr n) = (n : Int)) := by
  refine ⟨?_, by decide, by decide, ?_, ?_, ?_⟩
  · intro h m s hm hs
    show seconds_to_time (timeToSecondsL (padTwo h ++ ':' :: padTwo m ++ ':' :: padTwo s))
      = hmsStr h m s
    rw [timeToSeconds_hmsL]
    exact congrArg String.mk (secondsToTime_hmsL h m s hm hs)
  · intro h m s rest
    exact timeToSeconds_hms_fracL h m s rest
  · intro m s
    exact timeToSeconds_mmssL m s
  · intro n
    exact timeToSeconds_bareL n

/-- Witness for C8 at concrete inputs. -/
theorem C8_time_roundtrip_witness :
    seconds_to_time (time_to_seconds (hmsStr 25 1 5)) = hmsStr 25 1 5
    ∧ hmsStr 25 1 5 = "25:01:05"
    ∧ time_to_seconds ⟨(hmsStr 1 2 3).data ++ '.' :: ['5']⟩ = 3723 :=
  ⟨C8_time_roundtrip.1 25 1 5 (by decide) (by decide), by decide,
    C8_time_roundtrip.2.2.2.1 1 2 3 ['5']⟩

/-! ### Progress percentage (`update_encoding_progress`, `core/ffmpeg.py:189-224`)

The source computes `progress_percent = min((current_seconds / total_seconds)
* 100, 100)`.  Real arithmetic is embedded over `ℚ` (the Python values are
produced by integer second counts divided exactly). -/

/-- Embedding of the percentage computation at `core/ffmpeg.py:195`. -/
def progress_percent (cur tot : ℚ) : ℚ :=
  min (cur / tot * 100) 100

/-- Claim C6: for a valid (nonnegative) current-time sample and positive total
duration the computed percentage is `current/total*100` clamped to `[0,100]`,
equals `100` once `current ≥ total`, and is monotone in the sample, pointwise
and over any sorted sample sequence. -/
theorem C6_progress_percent_clamped (cur tot : ℚ) (hc : 0 ≤ cur) (ht : 0 < tot) :
    progress_percent cur tot = max 0 (min (cur / tot * 100) 100)
    ∧ (tot ≤ cur → progress_percent cur tot = 100)
    ∧ (∀ cur' : ℚ, cur ≤ cur' → progress_percent cur tot ≤ progress_percent cur' tot)
    ∧ ∀ l : List ℚ, l.Sorted (· ≤ ·) →
        (l.map (fun c => progress_percent c tot)).Sorted (· ≤ ·) := by
  have mono : ∀ a b : ℚ, a ≤ b → progress_percent a tot ≤ progress_percent b tot := by
    intro a b hab
    refine min_le_min ?_ le_rfl
    have := (div_le_div_iff_of_pos_right ht).mpr hab
    nlinarith
  refine ⟨?_, ?_, fun c h => mono cur c h, fun l hl => List.Pairwise.map _ mono hl⟩
  · have h0 : (0 : ℚ) ≤ min (cur / tot * 100) 100 :=
      le_min (by positivity) (by norm_num)
    rw [max_eq_right h0, progress_percent]
  · intro h
    rw [progress_percent, min_eq_right]
    have h1 : (1 : ℚ) ≤ cur / tot := (one_le_div ht).mpr h
    nlinarith

/-- Witness for C6 at a concrete sample. -/
theorem C6_progress_percent_clamped_witness :
    progress_percent 30 60 = max 0 (min (30 / 60 * 100) 100)
    ∧ progress_percent 30 60 = 50 :=
  ⟨(C6_progress_percent_clamped 30 60 (by norm_num) (by norm_num)).1,
    by norm_num [progress_percent]⟩

/-! ### Progress monitoring (`monitor_progress`, `core/ffmpeg.py:125-165`)

The monitor keeps `last_update_time`, initialised to `0`, and emits an update
at loop time `t` exactly when `t - last_update_time >= 3`, then sets
`last_update_time := t`.  `emitsFrom` folds that rule over the sequence of
update opportunities (event-loop timestamps at which a valid sample is in
hand); `monitorEmits` starts from the source's initial value `0`. -/

/-- One-step fold of the rate limiter at `core/ffmpeg.py:128,145-151`. -/
def emitsFrom (last : ℚ) : List ℚ → List ℚ
  | [] => []
  | t :: rest => if 3 ≤ t - last then t :: emitsFrom t rest else emitsFrom last rest

/-- Timestamps at which `monitor_progress` actually edits the status message,
given the timestamps of its update opportunities. -/
def monitorEmits (ts : List ℚ) : List ℚ :=
  emitsFrom 0 ts

/-- Claim C7 as stated is false: with first-call clock reading `t0 = 2`, the
opportunities `t0, t0+1, t0+2, t0+4` yield emissions at `t0+1` and `t0+4`
(the limiter is initialised to clock epoch `0`, not to the first call), so the
emitted set is not contained in `{t0, t0+4}` and the very first update is
suppressed. -/
theorem C7_rate_limit_counterexample :
    ¬ ∀ t0 : ℚ, monitorEmits [t0, t0 + 1, t0 + 2, t0 + 4] ⊆ [t0, t0 + 4]
        ∧ (monitorEmits [t0, t0 + 1, t0 + 2, t0 + 4]).head? = some t0 := by
  intro hall
  have heval : monitorEmits [(2 : ℚ), 2 + 1, 2 + 2, 2 + 4] = [3, 6] := by
    norm_num [monitorEmits, emitsFrom]
  have h2 := (hall 2).2
  rw [heval] at h2
  simp only [List.head?_cons, Option.some.injEq] at h2
  norm_num at h2

/-! ### Running the encoder (`run_ffmpeg_with_progress`, `core/ffmpeg.py:46-123`)

The source awaits `process.communicate()` unconditionally (line 76): no clock
is read, no `asyncio.wait_for` is used, and `ENCODING_TIMEOUT` (defined at
`config.py:91`) is never imported by `core/ffmpeg.py`.  The embedding
therefore carries the subprocess's wall-clock duration as an explicit
environment field `elapsed` which no code path consults.  The model assumes
the status-message edits themselves do not raise (the `except` branch at
lines 114-123 is reachable only through such external failures). -/

/-- `ENCODING_TIMEOUT` from `config.py:91` (seconds). -/
def ENCODING_TIMEOUT : Nat := 1800

/-- Completion status text (`core/ffmpeg.py:95-100`). -/
def encodingCompletedMsg : String :=
  "✅ **Video Encoding Completed!**\n\n🎬 Processing finished successfully\n📁 Preparing final output..."

/-- Failure status text (`core/ffmpeg.py:104-111`), around the first 200
characters of the decoded stderr. -/
def encodingFailedMsg (e : String) : String :=
  "❌ **Encoding Failed**\n\nError: " ++ e ++ "\n\nTry different settings or file format."

/-- Observable outcome of one encoder subprocess run: its wall-clock duration,
exit status and decoded stderr. -/
structure FfmpegRun where
  elapsed : ℚ
  returncode : Int
  stderrData : String
deriving DecidableEq

/-- What `run_ffmpeg_with_progress` produces: its boolean return and the final
status-message edit. -/
structure RunResult where
  success : Bool
  userMsg : Option String
deriving DecidableEq

/-- Embedding of `run_ffmpeg_with_progress` (`core/ffmpeg.py:46-123`): success
is exactly exit code zero; on failure the message carries
`stderr.decode()[:200]`, or a fixed fallback when stderr is empty. -/
def run_ffmpeg_with_progress (r : FfmpegRun) : RunResult :=
  if r.returncode = 0 then
    ⟨true, some encodingCompletedMsg⟩
  else
    ⟨false, some (encodingFailedMsg
      (if r.stderrData = "" then "Unknown encoding error" else r.stderrData.take 200))⟩

/-- Claim C5 is refuted by the code: the run outcome is entirely independent
of the subprocess's wall-clock duration — in particular a run exceeding
`ENCODING_TIMEOUT` is indistinguishable from an instantaneous one, is never
terminated, and no timeout-specific failure exists (the only messages are the
completion and stderr-failure texts above). -/
theorem C5_no_timeout_enforcement :
    (∀ (e₁ e₂ : ℚ) (rc : Int) (sb : String),
      run_ffmpeg_with_progress ⟨e₁, rc, sb⟩ = run_ffmpeg_with_progress ⟨e₂, rc, sb⟩)
    ∧ run_ffmpeg_with_progress ⟨(ENCODING_TIMEOUT : ℚ) + 1, 0, ""⟩
        = ⟨true, some encodingCompletedMsg⟩
    ∧ (∀ r : FfmpegRun, (run_ffmpeg_with_progress r).userMsg = some encodingCompletedMsg
        ∨ ∃ e, (run_ffmpeg_with_progress r).userMsg = some (encodingFailedMsg e)) := by
  refine ⟨fun e₁ e₂ rc sb => rfl, rfl, fun r => ?_⟩
  by_cases h : r.returncode = 0
  · exact Or.inl (by simp [run_ffmpeg_with_progress, h])
  · exact Or.inr ⟨if r.stderrData = "" then "Unknown encoding error" else r.stderrData.take 200,
      by simp [run_ffmpeg_with_progress, h]⟩

/-- Claim C7 amended: once the event-loop clock reads at least `3` at the
first opportunity (always the case in practice, since the limiter is
initialised to clock epoch `0`, not to the first call), exactly the updates
at `t0` and `t0+4` are emitted from opportunities `t0, t0+1, t0+2, t0+4`;
and the final completion/failure status edit after the process exits is
unconditional, so the very last update is never suppressed. -/
theorem C7_rate_limit_amended (t0 : ℚ) (h : 3 ≤ t0) :
    monitorEmits [t0, t0 + 1, t0 + 2, t0 + 4] = [t0, t0 + 4]
    ∧ ∀ r : FfmpegRun, (run_ffmpeg_with_progress r).userMsg.isSome = true := by
  constructor
  · show emitsFrom 0 [t0, t0 + 1, t0 + 2, t0 + 4] = [t0, t0 + 4]
    rw [emitsFrom, if_pos (by linarith)]
    rw [emitsFrom, if_neg (by intro hc; linarith)]
    rw [emitsFrom, if_neg (by intro hc; linarith)]
    rw [emitsFrom, if_pos (by linarith)]
    rfl
  · intro r
    by_cases hr : r.returncode = 0 <;> simp [run_ffmpeg_with_progress, hr]

/-- Witness for the amended C7 at `t0 = 5`. -/
theorem C7_rate_limit_amended_witness :
    monitorEmits [(5 : ℚ), 5 + 1, 5 + 2, 5 + 4] = [5, 5 + 4] :=
  (C7_rate_limit_amended 5 (by norm_num)).1

/-! ### `encode_video` (`core/ffmpeg.py:12-44`)

`output_path = f"temp/encoded_{base_name}.mp4"` with `base_name =
os.path.splitext(os.path.basename(input_path))[0]`; the function returns the
output path when `run_ffmpeg_with_progress` returned `True` and
`os.path.exists(output_path)` holds, and `None` in every other case. -/

/-- Index of the last occurrence of `c`, if any. -/
def lastIdxOf (c : Char) : List Char → Option Nat
  | [] => none
  | x :: xs =>
    match lastIdxOf c xs with
    | some i => some (i + 1)
    | none => if x = c then some 0 else none

/-- `os.path.basename`: the part after the last `'/'`. -/
def basenameL (l : List Char) : List Char :=
  (pySplitChar '/' l).getLastD []

/-- Stem part of `os.path.splitext` on a basename: cut at the last dot unless
every character before it is itself a dot (CPython's leading-dot rule). -/
def stemL (b : List Char) : List Char :=
  match lastIdxOf '.' b with
  | none => b
  | some i => if (b.take i).all (fun c => c = '.') then b else b.take i

/-- The output path `encode_video` derives from its input path
(`core/ffmpeg.py:16-17`). -/
def encodeOutputPath (input_path : String) : String :=
  "temp/encoded_" ++ (⟨stemL (basenameL input_path.data)⟩ : String) ++ ".mp4"

/-- Environment of one `encode_video` call: the subprocess observables plus
the state of the output file when the process has ended. -/
structure EncodeEnv where
  run : FfmpegRun
  outputExists : Bool
  outputSize : Nat
deriving DecidableEq

/-- Embedding of `encode_video` (`core/ffmpeg.py:12-44`): returns the output
path iff the run succeeded and the output file exists (its size is not
consulted); all other outcomes, including caught exceptions, yield `None`. -/
def encode_video (input_path : String) (env : EncodeEnv) : Option String :=
  if (run_ffmpeg_with_progress env.run).success && env.outputExists then
    some (encodeOutputPath input_path)
  else
    none

/-- Claim C4 as stated is false: with exit code `0` and an existing but empty
(zero-byte) output file, `encode_video` still returns the output path — the
code checks `os.path.exists` only, never the file's size. -/
theorem C4_encode_success_counterexample :
    ¬ ∀ (ip : String) (env : EncodeEnv),
        (encode_video ip env).isSome = true ↔
          (env.run.returncode = 0 ∧ env.outputExists = true ∧ 0 < env.outputSize) := by
  intro hall
  have h := (hall "temp/video_1.mp4" ⟨⟨0, 0, ""⟩, true, 0⟩).mp (by decide)
  exact absurd h.2.2 (by decide)

/-- Claim C4 amended: `encode_video` returns the derived output path exactly
when the subprocess exits zero and the output file exists (regardless of its
size); otherwise it returns `None`; and on a non-zero exit the status message
surfaces the first 200 characters of stderr (or a fixed fallback when stderr
is empty), with no retry path in the code. -/
theorem C4_encode_success_amended (ip : String) (env : EncodeEnv) :
    (encode_video ip env = some (encodeOutputPath ip) ↔
      (env.run.returncode = 0 ∧ env.outputExists = true))
    ∧ (encode_video ip env = some (encodeOutputPath ip) ∨ encode_video ip env = none)
    ∧ (env.run.returncode ≠ 0 →
        encode_video ip env = none ∧
        (run_ffmpeg_with_progress env.run).userMsg =
          some (encodingFailedMsg
            (if env.run.stderrData = "" then "Unknown encoding error"
             else env.run.stderrData.take 200))) := by
  by_cases h0 : env.run.returncode = 0
  · by_cases hex : env.outputExists
    · refine ⟨⟨fun _ => ⟨h0, hex⟩, fun _ => ?_⟩, Or.inl ?_, fun hne => absurd h0 hne⟩ <;>
        simp [encode_video, run_ffmpeg_with_progress, h0, hex]
    · have hex' : env.outputExists = false := by
        cases hb : env.outputExists
        · rfl
        · exact absurd hb hex
      have hnone : encode_video ip env = none := by
        simp [encode_video, run_ffmpeg_with_progress, h0, hex']
      refine ⟨⟨fun hc => ?_, fun hc => absurd hc.2 hex⟩, Or.inr hnone,
        fun hne => absurd h0 hne⟩
      rw [hnone] at hc
      exact absurd hc (by simp)
  · have hnone : encode_video ip env = none := by
      simp [encode_video, run_ffmpeg_with_progress, h0]
    refine ⟨⟨fun hc => ?_, fun hc => absurd hc.1 h0⟩, Or.inr hnone,
      fun _ => ⟨hnone, by simp [run_ffmpeg_with_progress, h0]⟩⟩
    rw [hnone] at hc
    exact absurd hc (by simp)

/-- Witness for the amended C4 at a concrete failing run. -/
theorem C4_encode_success_amended_witness :
    encode_video "temp/video_1.mp4" ⟨⟨0, 1, ""⟩, false, 0⟩ = none ∧
    (run_ffmpeg_with_progress ⟨0, 1, ""⟩).userMsg =
      some (encodingFailedMsg "Unknown encoding error") := by
  have h := (C4_encode_success_amended "temp/video_1.mp4" ⟨⟨0, 1, ""⟩, false, 0⟩).2.2
    (by decide)
  exact ⟨h.1, by rw [h.2]; rfl⟩


/-! ### `extract_progress_time` (`core/ffmpeg.py:167-187`)

The source iterates over the lines of the accumulated progress-file content
and returns from inside the loop at the FIRST line carrying an `out_time=` or
`out_time_ms=` key; later (more recent) records are never reached. -/

/-- Python `line.split('=')[1]` (an out-of-range index raises, which the outer
handler converts to `None`; under a matched key the list always has a second
element). -/
def afterFirstEq (line : List Char) : List Char :=
  (pySplitChar '=' line).getD 1 []

/-- Loop body of `extract_progress_time`: first matching line wins. -/
def extractGo : List (List Char) → Option (List Char)
  | [] => none
  | line :: rest =>
    if startsWithL "out_time=".data line then
      some (pyStripL (afterFirstEq line))
    else if startsWithL "out_time_ms=".data line then
      match pyIntL (afterFirstEq line) with
      | some us => some (secondsToTimeL (Int.tdiv us 1000000))
      | none => none
    else extractGo rest

/-- Embedding of `extract_progress_time` (`core/ffmpeg.py:167-187`). -/
def extract_progress_time (content : String) : Option String :=
  (extractGo (pySplitChar '\n' (pyStripL content.data))).map (fun l => (⟨l⟩ : String))

/-- Accumulated progress-file content holding two successive `out_time`
records: the earlier one reads `00:00:01`, the later one `00:00:05`. -/
def twoRecordContent : String :=
  "frame=10\nout_time=00:00:01\nprogress=continue\nframe=20\nout_time=00:00:05\nprogress=continue"

/-- Claim C9 is violated by the code: on content carrying two `out_time`
records the extracted sample is the FIRST (oldest) one, `00:00:01`, not the
latest `00:00:05` — the loop returns at the first matching line. -/
theorem C9_first_sample_extracted :
    extract_progress_time twoRecordContent = some "00:00:01"
    ∧ some "00:00:01" ≠ some "00:00:05" := by
  exact ⟨by decide, by decide⟩

/-! ### `build_ffmpeg_command` (`core/ffmpeg.py:307-351`)

The command builder reads exactly four preference fields (`vcodec`, `bits`,
`crf`, `resolution`); modelling them as record fields makes the dictionary
accesses total, as they are for every legal preference record.  The function
is a pure mapping, so totality and determinism (same settings and paths give
a byte-identical argument list) hold by construction. -/

/-- `FFMPEG_PATH` from `config.py:45`. -/
def FFMPEG_PATH : String := "ffmpeg"

/-- The preference fields `build_ffmpeg_command` consults. -/
structure Settings where
  vcodec : String
  bits : String
  crf : String
  resolution : String
deriving DecidableEq

/-- The fixed resolution lookup table (`core/ffmpeg.py:327-334`). -/
def resolution_map : List (String × String) :=
  [("240", "426x240"), ("360", "640x360"), ("480", "854x480"),
   ("576", "1024x576"), ("720", "1280x720"), ("1080", "1920x1080")]

/-- Embedding of `build_ffmpeg_command` (`core/ffmpeg.py:307-351`). -/
def build_ffmpeg_command (input_path output_path : String) (s : Settings) :
    List String :=
  [FFMPEG_PATH, "-i", input_path]
  ++ (if s.vcodec = "x264" then ["-c:v", "libx264"] else ["-c:v", "libx265"])
  ++ (if s.bits = "10" then ["-pix_fmt", "yuv420p10le"] else ["-pix_fmt", "yuv420p"])
  ++ ["-crf", s.crf]
  ++ (match List.lookup s.resolution resolution_map with
      | some wh => ["-s", wh]
      | none => [])
  ++ ["-c:a", "aac", "-b:a", "128k", "-preset", "medium", "-y", output_path]

example :
    build_ffmpeg_command "in.mp4" "out.mp4" ⟨"x265", "8", "28", "480"⟩ =
      ["ffmpeg", "-i", "in.mp4", "-c:v", "libx265", "-pix_fmt", "yuv420p",
       "-crf", "28", "-s", "854x480", "-c:a", "aac", "-b:a", "128k",
       "-preset", "medium", "-y", "out.mp4"] := by decide

/-- Claim C2: the builder is a total function of the settings (hence
deterministic — equal settings and paths give the identical argument list);
each resolution class in the table contributes exactly its documented
`["-s", WxH]` pair; a resolution outside the table contributes no `-s` flag
(the only `"-s"` entries that could remain are the caller-chosen free-form
strings `crf` and the two paths, which the flag-position argument excludes). -/
theorem C2_build_command (ip op : String) (s : Settings) :
    (∀ r wh, (r, wh) ∈ resolution_map → s.resolution = r →
      List.IsInfix ["-s", wh] (build_ffmpeg_command ip op s))
    ∧ (s.resolution ∉ resolution_map.map Prod.fst →
        s.crf ≠ "-s" → ip ≠ "-s" → op ≠ "-s" →
        "-s" ∉ build_ffmpeg_command ip op s)
    ∧ (∀ s' : Settings, s' = s →
        build_ffmpeg_command ip op s' = build_ffmpeg_command ip op s) := by
  refine ⟨?_, ?_, fun s' h => by rw [h]⟩
  · intro r wh hmem hres
    have hlook : List.lookup s.resolution resolution_map = some wh := by
      rw [hres]
      fin_cases hmem <;> decide
    unfold build_ffmpeg_command
    rw [hlook]
    refine ⟨[FFMPEG_PATH, "-i", ip]
      ++ (if s.vcodec = "x264" then ["-c:v", "libx264"] else ["-c:v", "libx265"])
      ++ (if s.bits = "10" then ["-pix_fmt", "yuv420p10le"] else ["-pix_fmt", "yuv420p"])
      ++ ["-crf", s.crf],
      ["-c:a", "aac", "-b:a", "128k", "-preset", "medium", "-y", op], ?_⟩
    simp [List.append_assoc]
  · intro hout hcrf hip hop hmem
    simp only [resolution_map, List.map_cons, List.map_nil, List.mem_cons,
      List.mem_singleton, not_or] at hout
    have hlook : List.lookup s.resolution resolution_map = none := by
      have b1 := beq_eq_false_iff_ne.mpr hout.1
      have b2 := beq_eq_false_iff_ne.mpr hout.2.1
      have b3 := beq_eq_false_iff_ne.mpr hout.2.2.1
      have b4 := beq_eq_false_iff_ne.mpr hout.2.2.2.1
      have b5 := beq_eq_false_iff_ne.mpr hout.2.2.2.2.1
      have b6 := beq_eq_false_iff_ne.mpr hout.2.2.2.2.2.1
      simp [List.lookup, resolution_map, b1, b2, b3, b4, b5, b6]
    by_cases hv : s.vcodec = "x264" <;> by_cases hb : s.bits = "10" <;>
      simp [build_ffmpeg_command, FFMPEG_PATH, hlook, hv, hb] at hmem <;>
      rcases hmem with h | h | h <;>
      first
        | exact hip h.symm
        | exact hip h
        | exact hcrf h.symm
        | exact hcrf h
        | exact hop h.symm

/-- Witness for C2: concrete supported and unsupported resolutions. -/
theorem C2_build_command_witness :
    List.IsInfix ["-s", "854x480"]
      (build_ffmpeg_command "in.mp4" "out.mp4" ⟨"x265", "8", "28", "480"⟩)
    ∧ "-s" ∉ build_ffmpeg_command "in.mp4" "out.mp4" ⟨"x264", "10", "22", "2160"⟩ :=
  ⟨(C2_build_command "in.mp4" "out.mp4" ⟨"x265", "8", "28", "480"⟩).1
      "480" "854x480" (by decide) rfl,
    (C2_build_command "in.mp4" "out.mp4" ⟨"x264", "10", "22", "2160"⟩).2.1
      (by decide) (by decide) (by decide) (by decide)⟩

/-! ### Transport selection (`download_media`, `core/downloader.py:40-142`)

`download_media` first rejects truthy sizes above `MAX_FILE_SIZE`, then sets
`use_mtproto = file_size and file_size > TELEGRAM_BOT_API_LIMIT and
PYROGRAM_AVAILABLE and USE_MTPROTO_FOR_LARGE_FILES` (lines 76-77) and
dispatches; `download_with_bot_api` re-checks the Bot API ceiling (lines
99-106) and, when exceeded, edits a size-exceeded message and returns `None`
without raising.  The route value records which of those paths runs. -/

/-- `TELEGRAM_BOT_API_LIMIT` from `config.py:48` (20 MB). -/
def TELEGRAM_BOT_API_LIMIT : Nat := 20 * 1024 * 1024

/-- `TELEGRAM_CLIENT_LIMIT` from `config.py:49` (2 GB). -/
def TELEGRAM_CLIENT_LIMIT : Nat := 2000 * 1024 * 1024

/-- `MAX_FILE_SIZE` from `config.py:50`. -/
def MAX_FILE_SIZE : Nat := TELEGRAM_CLIENT_LIMIT

/-- `USE_MTPROTO_FOR_LARGE_FILES` from `config.py:95`. -/
def USE_MTPROTO_FOR_LARGE_FILES : Bool := true

/-- Python truthiness of the declared `file_size` (`None` and `0` are falsy). -/
def truthySize : Option Nat → Bool
  | none => false
  | some n => n != 0

/-- Numeric value of the declared size (only consulted when truthy). -/
def sizeVal : Option Nat → Nat
  | none => 0
  | some n => n

/-- The control-flow outcomes of `download_media`'s dispatch. -/
inductive DlRoute
  /-- No video or document in the message; returns `None` (line 55-57). -/
  | noMedia
  /-- Size above `MAX_FILE_SIZE`: "File Too Large" message, returns `None`
  (lines 60-73). -/
  | abortTooLarge
  /-- The alternate MTProto transport is attempted (line 79-81). -/
  | viaMtproto
  /-- Bot API path, but the pre-check at `downloader.py:99-106` fires: a
  size-exceeded message is edited and `None` is returned without raising. -/
  | botApiSizeAbort
  /-- Bot API path proceeds to the actual download (lines 108-136). -/
  | botApiDownload
deriving DecidableEq

/-- Embedding of `download_media`'s transport dispatch
(`core/downloader.py:40-106`). -/
def download_media_route (pyrogramAvailable hasMedia : Bool)
    (fileSize : Option Nat) : DlRoute :=
  if hasMedia = false then .noMedia
  else if truthySize fileSize && decide (MAX_FILE_SIZE < sizeVal fileSize) then
    .abortTooLarge
  else if truthySize fileSize && decide (TELEGRAM_BOT_API_LIMIT < sizeVal fileSize)
      && pyrogramAvailable && USE_MTPROTO_FOR_LARGE_FILES then
    .viaMtproto
  else if truthySize fileSize && decide (TELEGRAM_BOT_API_LIMIT < sizeVal fileSize) then
    .botApiSizeAbort
  else
    .botApiDownload

/-- Routes on which the job is aborted with a user-facing message and the
no-file sentinel `None`, rather than an exception. -/
def routeReturnsNoFile : DlRoute → Bool
  | .noMedia => true
  | .abortTooLarge => true
  | .botApiSizeAbort => true
  | .viaMtproto => false
  | .botApiDownload => false

/-- Claim C3: a file declared at exactly `TELEGRAM_BOT_API_LIMIT` goes through
the standard Bot API transport regardless of MTProto availability; one byte
over goes through MTProto when pyrogram is available; when it is not, the Bot
API pre-check aborts the job with the size-exceeded message and the `None`
sentinel instead of raising. -/
theorem C3_transport_selection :
    (∀ p : Bool,
      download_media_route p true (some TELEGRAM_BOT_API_LIMIT) = .botApiDownload)
    ∧ download_media_route true true (some (TELEGRAM_BOT_API_LIMIT + 1)) = .viaMtproto
    ∧ download_media_route false true (some (TELEGRAM_BOT_API_LIMIT + 1))
        = .botApiSizeAbort
    ∧ routeReturnsNoFile
        (download_media_route false true (some (TELEGRAM_BOT_API_LIMIT + 1))) = true := by
  refine ⟨fun p => ?_, by decide, by decide, by decide⟩
  cases p <;> decide

/-- Witness for C3 at a concrete availability flag. -/
theorem C3_transport_selection_witness :
    download_media_route true true (some TELEGRAM_BOT_API_LIMIT) = .botApiDownload :=
  C3_transport_selection.1 true

/-! ### Job cleanup (`handle_media`, `commands/encode.py:15-210`;
`cleanup_temp_files`, `utils/cleaner.py:9-17`)

`cleanup_temp_files(paths)` removes exactly the listed paths that exist.
`handle_media` calls it with `[file_path]` on the encode-failure branch
(line 87), with `[file_path, output_path]` after the upload attempt
(line 182), and — under the comment "Cleanup any temporary files" — with the
EMPTY list `[]` on the unhandled-exception branch (line 210); the
download-failure early return (lines 49-51) calls no cleanup at all.  The
embedding tracks the on-disk temp files of one job as a list of paths. -/

/-- Embedding of `cleanup_temp_files` (`utils/cleaner.py:9-17`): the files
remaining on disk after removing the listed paths. -/
def cleanup_temp_files (fs paths : List String) : List String :=
  fs.filter (fun f => !(paths.contains f))

/-- Per-job environment: which phases succeed, which files each phase writes,
and where an unhandled exception (e.g. a failing status-message edit or an
uploader error) strikes. -/
structure JobEnv where
  tooLarge : Bool
  dlCreated : List String
  dlResult : Option String
  raiseAfterDownload : Bool
  encCreated : List String
  encResult : Option String
  raiseAfterEncode : Bool
deriving DecidableEq

/-- Embedding of `handle_media`'s cleanup behaviour: the temp files still on
disk when the handler returns, following the source's branch structure
(`commands/encode.py:15-210`). -/
def handle_media (env : JobEnv) : List String :=
  if env.tooLarge then []
  else
    match env.dlResult with
    | none => env.dlCreated
    | some fp =>
      if env.raiseAfterDownload then cleanup_temp_files env.dlCreated []
      else
        match env.encResult with
        | none => cleanup_temp_files (env.dlCreated ++ env.encCreated) [fp]
        | some op =>
          if env.raiseAfterEncode then
            cleanup_temp_files (env.dlCreated ++ env.encCreated) []
          else
            cleanup_temp_files (env.dlCreated ++ env.encCreated) [fp, op]

/-- Claim C1 is violated: when an unhandled exception strikes after a
successful encode, the `except` branch runs `cleanup_temp_files([])`
(`commands/encode.py:210`), which removes nothing — both the downloaded input
and the encoded output remain on disk when the handler returns.  The normal
path (third conjunct) does clean up both files, confirming the intent. -/
theorem C1_cleanup_exception_leak :
    handle_media
        ⟨false, ["temp/video_7.mp4"], some "temp/video_7.mp4", false,
          ["temp/encoded_video_7.mp4"], some "temp/encoded_video_7.mp4", true⟩
      = ["temp/video_7.mp4", "temp/encoded_video_7.mp4"]
    ∧ handle_media
        ⟨false, ["temp/video_7.mp4"], some "temp/video_7.mp4", false,
          ["temp/encoded_video_7.mp4"], some "temp/encoded_video_7.mp4", true⟩ ≠ []
    ∧ handle_media
        ⟨false, ["temp/video_7.mp4"], some "temp/video_7.mp4", false,
          ["temp/encoded_video_7.mp4"], some "temp/encoded_video_7.mp4", false⟩
      = [] := by
  exact ⟨by decide, by decide, by decide⟩

/-! ### `get_user_settings` (`models/user_settings.py:47-77`)

The accessor catches every exception and falls back to
`DEFAULT_SETTINGS.copy()`, also used when no row exists; a found row is
rebuilt into a fresh dict with the same ten keys, with `bool(row[10])`
applied to the stored `metadata_enabled` (column order per the
`CREATE TABLE user_settings` statement in `database/db.py`).  Python dicts
are embedded with an object identity tag so that `.copy()` (a fresh
allocation) is distinguishable from the module-level `DEFAULT_SETTINGS`. -/

/-- Values stored in a preference record. -/
inductive PyVal
  | str (s : String)
  | bool (b : Bool)
  | none_
deriving DecidableEq

/-- A Python dict: heap identity plus entries in insertion order. -/
structure PyDict where
  objId : Nat
  entries : List (String × PyVal)
deriving DecidableEq

/-- `DEFAULT_SETTINGS` from `config.py:26-37`, living at heap id `0`. -/
def DEFAULT_SETTINGS : PyDict :=
  ⟨0, [("upload_mode", .str "document"), ("resolution", .str "240"),
      ("vcodec", .str "x265"), ("bits", .str "10"), ("crf", .str "30"),
      ("aspect_ratio", .str "16:9"), ("custom_thumbnail", .none_),
      ("watermark", .none_), ("auto_rename", .none_),
      ("metadata_enabled", .bool false)]⟩

/-- One fetched `user_settings` row, columns 1-10 (column 0 is the user id). -/
structure SettingsRow where
  upload_mode : PyVal
  resolution : PyVal
  vcodec : PyVal
  bits : PyVal
  crf : PyVal
  aspect_ratio : PyVal
  custom_thumbnail : PyVal
  watermark : PyVal
  auto_rename : PyVal
  metadata_enabled : PyVal
deriving DecidableEq

/-- Python `bool(...)` on a stored value. -/
def pyTruthy : PyVal → Bool
  | .str s => s != ""
  | .bool b => b
  | .none_ => false

/-- Outcome of the database query: an exception, no row, or a row. -/
inductive DbFetch
  | err
  | ok (row : Option SettingsRow)
deriving DecidableEq

/-- Embedding of `get_user_settings` (`models/user_settings.py:47-77`).
`freshId` is the heap id of the dict the call allocates (Python allocates a
new object both for the row-dict literal and for `.copy()`). -/
def get_user_settings (freshId : Nat) (db : DbFetch) : PyDict :=
  match db with
  | .err => ⟨freshId, DEFAULT_SETTINGS.entries⟩
  | .ok none => ⟨freshId, DEFAULT_SETTINGS.entries⟩
  | .ok (some row) =>
    ⟨freshId,
     [("upload_mode", row.upload_mode), ("resolution", row.resolution),
      ("vcodec", row.vcodec), ("bits", row.bits), ("crf", row.crf),
      ("aspect_ratio", row.aspect_ratio),
      ("custom_thumbnail", row.custom_thumbnail),
      ("watermark", row.watermark), ("auto_rename", row.auto_rename),
      ("metadata_enabled", .bool (pyTruthy row.metadata_enabled))]⟩

/-- The ten preference keys. -/
def settingsKeys : List String :=
  ["upload_mode", "resolution", "vcodec", "bits", "crf", "aspect_ratio",
   "custom_thumbnail", "watermark", "auto_rename", "metadata_enabled"]

/-- Claim C10: for every query outcome — including a database error — the
accessor returns a dict carrying exactly the ten preference keys (totality is
the embedding being a function; the `except` arm is the `.err` case); the
returned dict is a fresh allocation, never aliasing `DEFAULT_SETTINGS`; and
when no row exists or the query fails its entries equal the defaults. -/
theorem C10_get_user_settings_total (freshId : Nat) (db : DbFetch)
    (hfresh : freshId ≠ DEFAULT_SETTINGS.objId) :
    (get_user_settings freshId db).entries.map Prod.fst = settingsKeys
    ∧ (get_user_settings freshId db).objId ≠ DEFAULT_SETTINGS.objId
    ∧ ((db = .err ∨ db = .ok none) →
        (get_user_settings freshId db).entries = DEFAULT_SETTINGS.entries) := by
  rcases db with _ | (_ | row)
  · exact ⟨rfl, hfresh, fun _ => rfl⟩
  · exact ⟨rfl, hfresh, fun _ => rfl⟩
  · refine ⟨rfl, hfresh, fun hor => ?_⟩
    rcases hor with h | h <;> simp at h

/-- Witness for C10 on a failed query with a concrete fresh heap id. -/
theorem C10_get_user_settings_total_witness :
    (get_user_settings 1 .err).entries.map Prod.fst = settingsKeys
    ∧ (get_user_settings 1 .err).objId ≠ DEFAULT_SETTINGS.objId
    ∧ (get_user_settings 1 .err).entries = DEFAULT_SETTINGS.entries := by
  have h := C10_get_user_settings_total 1 .err (by decide)
  exact ⟨h.1, h.2.1, h.2.2 (Or.inl rfl)⟩

end EncodeBot
